import Mathlib

/-!
Shallow embedding of the data-transformation layer of
`redmine_gitlab_migrator/converters.py` (redmine-gitlab-migrator).

Python dicts with fixed field shapes become Lean structures; optional /
possibly-absent fields become `Option`; dict indexes become association
lists queried with `List.lookup`; `KeyError` propagation becomes
`Except Unit`; Python string formatting becomes explicit concatenation;
`str.join` becomes `joinStr`.
-/

namespace RGM

/-- Python `"sep".join(list)`. -/
def joinStr (sep : String) : List String → String
  | [] => ""
  | [a] => a
  | a :: b :: rest => a ++ sep ++ joinStr sep (b :: rest)

/-- Python `str.lower()` (character-wise lowering, as for the ascii status
names involved). -/
def strLower (s : String) : String := ⟨s.data.map Char.toLower⟩

/-- Python truthiness of an optional string value (`None` and `''` are falsy). -/
def truthyOptStr : Option String → Bool
  | some s => s != ""
  | none => false

/-- A redmine record carrying `id` and `name` (author, tracker, status, ...). -/
structure NamedRef where
  id : Nat
  name : String
deriving DecidableEq, Repr

/-- A redmine record of which only `id` is used (children, parent). -/
structure IdRef where
  id : Nat
deriving DecidableEq, Repr

/-- Entry of the redmine user index (`redmine_user_index[id]`): only `login` is read. -/
structure RedmineUser where
  login : String
deriving DecidableEq, Repr

/-- Entry of the gitlab user index (`gitlab_user_index[username]`). -/
structure GitlabUser where
  id : Nat
  username : String
deriving DecidableEq, Repr

/-- Entry of the gitlab milestones index: only `id` is read. -/
structure GitlabMilestone where
  id : Nat
deriving DecidableEq, Repr

/-- `ANONYMOUS_USERNAME = ''` at module level in converters.py. -/
def ANONYMOUS_USERNAME : String := ""

/-- `redmine_username_to_gitlab_username`: apply the optional module-level
override table `user_dict` (here passed explicitly); identity when the
table is absent or has no entry for the login. -/
def redmine_username_to_gitlab_username
    (user_dict : Option (List (String × String))) (redmine_username : String) : String :=
  match user_dict with
  | some d =>
    match d.lookup redmine_username with
    | some v => v
    | none => redmine_username
  | none => redmine_username

/-- `redmine_uid_to_gitlab_user`: look up the redmine login for the id
(`KeyError` = `.error ()` when absent), apply the override table, fall back
to login `'root'` when the login is not in the gitlab index, and return
that gitlab record (a final `KeyError` when `'root'` itself is absent). -/
def redmine_uid_to_gitlab_user
    (user_dict : Option (List (String × String))) (redmine_id : Nat)
    (redmine_user_index : List (Nat × RedmineUser))
    (gitlab_user_index : List (String × GitlabUser)) : Except Unit GitlabUser :=
  match redmine_user_index.lookup redmine_id with
  | none => .error ()
  | some u =>
    let redmine_login := redmine_username_to_gitlab_username user_dict u.login
    let redmine_login :=
      if (gitlab_user_index.lookup redmine_login).isSome then redmine_login else "root"
    match gitlab_user_index.lookup redmine_login with
    | some g => .ok g
    | none => .error ()

/-- A redmine attachment record. -/
structure Attachment where
  filename : String
  description : Option String
  content_url : String
  content_type : Option String
deriving DecidableEq, Repr

/-- A gitlab upload descriptor built by `convert_attachment`. -/
structure Upload where
  filename : String
  description : Option String
  content_url : String
  content_type : String
deriving DecidableEq, Repr

/-- `convert_attachment`: pure field mapping, appending the api key to the
content url and defaulting the content type. -/
def convert_attachment (a : Attachment) (redmine_api_key : String) : Upload :=
  { filename := a.filename
    description := a.description
    content_url := a.content_url ++ "?key=" ++ redmine_api_key
    content_type := a.content_type.getD "application/octet-stream" }

/-- A formal redmine relation between two issues. -/
structure Relation where
  relation_type : String
  issue_id : Nat
  issue_to_id : Nat
deriving DecidableEq, Repr

/-- The line emitted by `relations_to_string` for one relation. -/
def relationLine (issue_id : Nat) (i : Relation) : String :=
  let other_issue_id := if issue_id == i.issue_id then i.issue_to_id else i.issue_id
  "  * " ++ i.relation_type ++ " #" ++ toString other_issue_id

/-- `relations_to_string`: one line per relation (naming the endpoint that
differs from the current issue), then one `child #id` line per child, then
a `parent #id` line when `parent_id > 0`, joined with newlines. -/
def relations_to_string
    (relations : List Relation) (children : List IdRef)
    (parent_id : Nat) (issue_id : Nat) : String :=
  let l := relations.map (relationLine issue_id)
  let l := l ++ children.map (fun i => "  * child #" ++ toString i.id)
  let l := if parent_id > 0 then l ++ ["  * parent #" ++ toString parent_id] else l
  joinStr "\n" l

/-- A redmine changeset record; `user` is the commit author name when the
nested `user.name` access succeeds, `none` when it raises `KeyError`. -/
structure Changeset where
  revision : String
  committed_on : String
  comments : String
  user : Option String
deriving DecidableEq, Repr

/-- The line emitted by `changesets_to_string` for one changeset. -/
def changesetLine (i : Changeset) : String :=
  let by_user_str := match i.user with
    | some u => " by " ++ u
    | none => ""
  "  * Revision " ++ i.revision ++ by_user_str ++ " on " ++ i.committed_on ++
    ":\n\n```\n" ++ i.comments ++ "\n```\n"

/-- `changesets_to_string`: one bullet per changeset, joined with newlines. -/
def changesets_to_string (changesets : List Changeset) : String :=
  joinStr "\n" (changesets.map changesetLine)

/-- A redmine custom field; `value` is `none` when absent (Python `.get`). -/
structure CustomField where
  name : String
  value : Option String
deriving DecidableEq, Repr

/-- Whether `custom_fields_to_string` keeps this field: name in the
allow-list and truthy value. -/
def customFieldKept (custom_fields_include : List String) (i : CustomField) : Bool :=
  custom_fields_include.contains i.name && truthyOptStr i.value

/-- `custom_fields_to_string`: one `name: value` bullet per allowed,
non-empty custom field, joined with newlines. -/
def custom_fields_to_string
    (custom_fields : List CustomField) (custom_fields_include : List String) : String :=
  joinStr "\n" (custom_fields.filterMap (fun i =>
    if customFieldKept custom_fields_include i then
      some ("  * " ++ i.name ++ ": " ++ i.value.getD "")
    else none))

/-- The `user` record of a journal entry (`id`, `name`). -/
structure JournalUser where
  id : Nat
  name : String
deriving DecidableEq, Repr

/-- A redmine journal entry. `notes` distinguishes an absent key (`none`),
a key present with value `None` (`some none`), and a string value
(`some (some s)`); `user` may be absent. -/
structure JournalEntry where
  user : Option JournalUser
  notes : Option (Option String)
  created_on : String
deriving DecidableEq, Repr

/-- Python `entry.get('notes', '')`: `none` here models the Python `None`
result (key present with null value); an absent key defaults to `""`. -/
def entryNotes (e : JournalEntry) : Option String :=
  match e.notes with
  | none => some ""
  | some v => v

/-- Author resolution inside `convert_notes`: the `try` block reads
`entry['user']['id']` (raising `KeyError` when `user` is absent) and
resolves it; the `except KeyError` branch falls back to the anonymous
username, rendering an absent user's name as Python prints `None`.
Returns `(author, author_name, gitlab_author_found)`. -/
def noteAuthor (user_dict : Option (List (String × String)))
    (redmine_user_index : List (Nat × RedmineUser))
    (gitlab_user_index : List (String × GitlabUser))
    (e : JournalEntry) : String × String × Bool :=
  match e.user with
  | none => (ANONYMOUS_USERNAME, "None", false)
  | some u =>
    match redmine_uid_to_gitlab_user user_dict u.id redmine_user_index gitlab_user_index with
    | .ok g => (g.username, u.name, true)
    | .error _ => (ANONYMOUS_USERNAME, u.name, false)

/-- The api payload for one issue note. -/
structure NoteData where
  body : String
  created_at : String
deriving DecidableEq, Repr

/-- The per-note meta dict: `none` models `{}`, `some a` models
a dict holding only the key `sudo_user` with value `a`. -/
abbrev NoteMeta := Option String

/-- The body of one converted journal entry, given its already-converted
text and the `(author, author_name, found)` triple. -/
def noteBody (sudoFlag : Bool) (journal_notes : String) (created_on : String)
    (author_name : String) (gitlab_author_found : Bool) : String :=
  let creator_text := if !sudoFlag || !gitlab_author_found then " by " ++ author_name else ""
  journal_notes ++ "\n\n*(from redmine: written on " ++ created_on.take 10 ++
    creator_text ++ ")*"

/-- One iteration of the `convert_notes` loop: `none` when the entry is
skipped (null or empty notes), otherwise the yielded `(data, meta)` pair. -/
def convert_note_entry (user_dict : Option (List (String × String)))
    (redmine_user_index : List (Nat × RedmineUser))
    (gitlab_user_index : List (String × GitlabUser))
    (textile_converter : String → String) (sudoFlag : Bool)
    (entry : JournalEntry) : Option (NoteData × NoteMeta) :=
  match entryNotes entry with
  | none => none
  | some journal_notes =>
    if journal_notes.length > 0 then
      let journal_notes := textile_converter journal_notes
      let a := noteAuthor user_dict redmine_user_index gitlab_user_index entry
      let body := noteBody sudoFlag journal_notes entry.created_on a.2.1 a.2.2
      let data : NoteData := { body := body, created_at := entry.created_on }
      let meta : NoteMeta := if sudoFlag then some a.1 else none
      some (data, meta)
    else none

/-- `convert_notes`: the generator over the journal list, as the finite
sequence it yields. -/
def convert_notes (redmine_issue_journals : List JournalEntry)
    (user_dict : Option (List (String × String)))
    (redmine_user_index : List (Nat × RedmineUser))
    (gitlab_user_index : List (String × GitlabUser))
    (textile_converter : String → String) (sudoFlag : Bool) : List (NoteData × NoteMeta) :=
  redmine_issue_journals.filterMap
    (convert_note_entry user_dict redmine_user_index gitlab_user_index textile_converter sudoFlag)

/-- A redmine issue record, with the fields `convert_issue` reads.
Optional fields mirror `.get` accesses; mandatory fields mirror direct
`[...]` subscripts (a missing mandatory field is a contract violation the
code does not defend against). -/
structure RedmineIssue where
  id : Nat
  subject : String
  description : Option String
  status : NamedRef
  tracker : NamedRef
  category : Option NamedRef
  priority : Option NamedRef
  author : NamedRef
  assigned_to : Option NamedRef
  created_on : String
  closed_on : Option String
  due_date : Option String
  fixed_version : Option NamedRef
  custom_fields : List CustomField
  relations : List Relation
  children : List IdRef
  parent : Option IdRef
  changesets : List Changeset
  journals : List JournalEntry
  attachments : List Attachment
deriving DecidableEq, Repr

/-- The gitlab issue payload dict; `milestone_id` and `assignee_id` model
keys that are present only on some paths. -/
structure GitlabIssuePayload where
  title : String
  description : String
  due_date : Option String
  created_at : String
  labels : String
  milestone_id : Option Nat
  assignee_id : Option Nat
deriving DecidableEq, Repr

/-- The per-issue meta dict; `sudo_user = none` models an absent key. -/
structure IssueMeta where
  notes : List (NoteData × NoteMeta)
  must_close : Bool
  uploads : List Upload
  sudo_user : Option String
deriving DecidableEq, Repr

/-- Lines 178-187 of converters.py: the close suffix for the provenance
line and the `closed` flag, as a pair. -/
def issueClosePair (redmine_issue : RedmineIssue) (closed_states : List String) :
    String × Bool :=
  if truthyOptStr redmine_issue.closed_on then
    (", closed on " ++ (redmine_issue.closed_on.getD "").take 10, true)
  else if strLower redmine_issue.status.name ∈ closed_states then
    (", closed (state: " ++ redmine_issue.status.name ++ ")", true)
  else ("", false)

/-- Author resolution in `convert_issue` (lines 224-238): gitlab username
on success, anonymous username on `KeyError`, with the found flag. -/
def issueAuthor (user_dict : Option (List (String × String)))
    (redmine_issue : RedmineIssue)
    (redmine_user_index : List (Nat × RedmineUser))
    (gitlab_user_index : List (String × GitlabUser)) : String × Bool :=
  match redmine_uid_to_gitlab_user user_dict redmine_issue.author.id
      redmine_user_index gitlab_user_index with
  | .ok g => (g.username, true)
  | .error _ => (ANONYMOUS_USERNAME, false)

/-- The label list of `convert_issue` (lines 209-215): tracker always,
then category, status, priority when present. -/
def issueLabels (redmine_issue : RedmineIssue) : List String :=
  [redmine_issue.tracker.name]
    ++ (match redmine_issue.category with | some c => [c.name] | none => [])
    ++ [redmine_issue.status.name]
    ++ (match redmine_issue.priority with | some p => [p.name] | none => [])

/-- The assembled description of `convert_issue` (lines 246-257). -/
def issueDescription (textile_converter : String → String)
    (redmine_issue : RedmineIssue) (creator_text close_text : String)
    (relations_text changesets_text custom_fields_text : String) : String :=
  textile_converter (redmine_issue.description.getD "") ++
    "\n\n*(from redmine: issue id " ++ toString redmine_issue.id ++
    ", created on " ++ redmine_issue.created_on.take 10 ++
    creator_text ++ close_text ++ ")*\n" ++
    relations_text ++ changesets_text ++ custom_fields_text

/-- The relations section (lines 189-197): the denormalized relations
string, prefixed with its header when non-empty. -/
def issueRelationsText (redmine_issue : RedmineIssue) : String :=
  let parent_id := match redmine_issue.parent with
    | some p => p.id
    | none => 0
  let relations_text := relations_to_string redmine_issue.relations
    redmine_issue.children parent_id redmine_issue.id
  if relations_text.length > 0 then "\n* Relations:\n" ++ relations_text
  else relations_text

/-- The changesets section (lines 199-202). -/
def issueChangesetsText (redmine_issue : RedmineIssue) : String :=
  let changesets_text := changesets_to_string redmine_issue.changesets
  if changesets_text.length > 0 then "\n* Changesets:\n" ++ changesets_text
  else changesets_text

/-- The custom-fields section (lines 204-207). -/
def issueCustomFieldsText (redmine_issue : RedmineIssue)
    (custom_fields_include : List String) : String :=
  let custom_fields_text := custom_fields_to_string redmine_issue.custom_fields
    custom_fields_include
  if custom_fields_text.length > 0 then "\n* Custom Fields:\n" ++ custom_fields_text
  else custom_fields_text

/-- The issue title (lines 219-222): raw subject or `-RM-{id}-MR-{subject}`. -/
def issueTitle (redmine_issue : RedmineIssue) (keep_title : Bool) : String :=
  if keep_title then redmine_issue.subject
  else "-RM-" ++ toString redmine_issue.id ++ "-MR-" ++ redmine_issue.subject

/-- The inline author suffix of the provenance line (lines 240-243). -/
def issueCreatorText (user_dict : Option (List (String × String)))
    (redmine_issue : RedmineIssue) (redmine_user_index : List (Nat × RedmineUser))
    (gitlab_user_index : List (String × GitlabUser)) (sudoFlag : Bool) : String :=
  if !sudoFlag ||
      !(issueAuthor user_dict redmine_issue redmine_user_index gitlab_user_index).2 then
    " by " ++ redmine_issue.author.name
  else ""

/-- The `data` dict as first constructed (lines 246-261), before the
milestone and assignee keys are considered. -/
def issueBaseData (redmine_issue : RedmineIssue)
    (user_dict : Option (List (String × String)))
    (redmine_user_index : List (Nat × RedmineUser))
    (gitlab_user_index : List (String × GitlabUser))
    (closed_states custom_fields_include : List String)
    (textile_converter : String → String) (keep_title sudoFlag : Bool) :
    GitlabIssuePayload :=
  { title := issueTitle redmine_issue keep_title
    description := issueDescription textile_converter redmine_issue
      (issueCreatorText user_dict redmine_issue redmine_user_index
        gitlab_user_index sudoFlag)
      ((issueClosePair redmine_issue closed_states).1)
      (issueRelationsText redmine_issue)
      (issueChangesetsText redmine_issue)
      (issueCustomFieldsText redmine_issue custom_fields_include)
    due_date := redmine_issue.due_date
    created_at := redmine_issue.created_on
    labels := joinStr "," (issueLabels redmine_issue)
    milestone_id := none
    assignee_id := none }

/-- The `meta` dict (lines 267-274). -/
def issueMetaOf (redmine_api_key : String) (redmine_issue : RedmineIssue)
    (user_dict : Option (List (String × String)))
    (redmine_user_index : List (Nat × RedmineUser))
    (gitlab_user_index : List (String × GitlabUser))
    (closed_states : List String) (textile_converter : String → String)
    (sudoFlag : Bool) : IssueMeta :=
  { notes := convert_notes redmine_issue.journals user_dict redmine_user_index
      gitlab_user_index textile_converter sudoFlag
    must_close := (issueClosePair redmine_issue closed_states).2
    uploads := redmine_issue.attachments.map (convert_attachment · redmine_api_key)
    sudo_user := if sudoFlag then
      some (issueAuthor user_dict redmine_issue redmine_user_index gitlab_user_index).1
    else none }

/-- The assignee step (lines 276-284): set `assignee_id` on successful
resolution, append the raw assignee name to the labels string on a caught
`KeyError`, leave the payload unchanged when no assignee is present. -/
def applyAssignee (user_dict : Option (List (String × String)))
    (redmine_user_index : List (Nat × RedmineUser))
    (gitlab_user_index : List (String × GitlabUser))
    (redmine_issue : RedmineIssue) (data : GitlabIssuePayload) : GitlabIssuePayload :=
  match redmine_issue.assigned_to with
  | none => data
  | some assigned_to =>
    match redmine_uid_to_gitlab_user user_dict assigned_to.id
        redmine_user_index gitlab_user_index with
    | .ok g => { data with assignee_id := some g.id }
    | .error _ => { data with labels := data.labels ++ "," ++ assigned_to.name }

/-- `convert_issue`: the top-level issue conversion. `.error ()` models the
uncaught `KeyError` of the milestone lookup (line 265); author and
assignee lookup failures are caught inside, as in the source. -/
def convert_issue (redmine_api_key : String) (redmine_issue : RedmineIssue)
    (user_dict : Option (List (String × String)))
    (redmine_user_index : List (Nat × RedmineUser))
    (gitlab_user_index : List (String × GitlabUser))
    (gitlab_milestones_index : List (String × GitlabMilestone))
    (closed_states : List String) (custom_fields_include : List String)
    (textile_converter : String → String) (keep_title sudoFlag : Bool) :
    Except Unit (GitlabIssuePayload × IssueMeta × Nat) :=
  let data := issueBaseData redmine_issue user_dict redmine_user_index
    gitlab_user_index closed_states custom_fields_include textile_converter
    keep_title sudoFlag
  let meta := issueMetaOf redmine_api_key redmine_issue user_dict
    redmine_user_index gitlab_user_index closed_states textile_converter sudoFlag
  match redmine_issue.fixed_version with
  | none =>
    .ok (applyAssignee user_dict redmine_user_index gitlab_user_index
      redmine_issue data, meta, redmine_issue.id)
  | some version =>
    match gitlab_milestones_index.lookup version.name with
    | some m =>
      .ok (applyAssignee user_dict redmine_user_index gitlab_user_index
        redmine_issue { data with milestone_id := some m.id }, meta, redmine_issue.id)
    | none => .error ()

/-- A redmine version record; `due_date` models the key being present. -/
structure RedmineVersion where
  name : String
  description : Option String
  created_on : String
  due_date : Option String
  status : String
deriving DecidableEq, Repr

/-- The gitlab milestone payload; `due_date` is present only when the
version exposed one. -/
structure MilestonePayload where
  title : String
  description : String
  due_date : Option String
deriving DecidableEq, Repr

/-- `convert_version`: version name, description with provenance suffix,
optional truncated due date, and the must_close meta flag. -/
def convert_version (redmine_version : RedmineVersion) : MilestonePayload × Bool :=
  ({ title := redmine_version.name
     description := redmine_version.description.getD "" ++
       "\n\n*(from redmine: created on " ++ redmine_version.created_on.take 10 ++ ")*"
     due_date := redmine_version.due_date.map (·.take 10) },
   redmine_version.status == "closed")

/-- Whether the assignee's redmine id resolves through
`redmine_uid_to_gitlab_user` without a `KeyError`. -/
def assigneeResolves (user_dict : Option (List (String × String)))
    (redmine_user_index : List (Nat × RedmineUser))
    (gitlab_user_index : List (String × GitlabUser)) (a : NamedRef) : Bool :=
  match redmine_uid_to_gitlab_user user_dict a.id redmine_user_index gitlab_user_index with
  | .ok _ => true
  | .error _ => false

/-! ## Helper lemmas -/

lemma applyAssignee_frame (ud : Option (List (String × String)))
    (rui : List (Nat × RedmineUser)) (gui : List (String × GitlabUser))
    (issue : RedmineIssue) (d : GitlabIssuePayload) :
    (applyAssignee ud rui gui issue d).title = d.title ∧
    (applyAssignee ud rui gui issue d).description = d.description ∧
    (applyAssignee ud rui gui issue d).due_date = d.due_date ∧
    (applyAssignee ud rui gui issue d).created_at = d.created_at ∧
    (applyAssignee ud rui gui issue d).milestone_id = d.milestone_id := by
  unfold applyAssignee
  cases h : issue.assigned_to with
  | none => exact ⟨rfl, rfl, rfl, rfl, rfl⟩
  | some a =>
    dsimp only
    cases hr : redmine_uid_to_gitlab_user ud a.id rui gui <;>
      (dsimp only; exact ⟨rfl, rfl, rfl, rfl, rfl⟩)

lemma applyAssignee_no_assignee (ud : Option (List (String × String)))
    (rui : List (Nat × RedmineUser)) (gui : List (String × GitlabUser))
    (issue : RedmineIssue) (d : GitlabIssuePayload) (h : issue.assigned_to = none) :
    applyAssignee ud rui gui issue d = d := by
  unfold applyAssignee
  rw [h]

lemma applyAssignee_resolved (ud : Option (List (String × String)))
    (rui : List (Nat × RedmineUser)) (gui : List (String × GitlabUser))
    (issue : RedmineIssue) (d : GitlabIssuePayload) (a : NamedRef) (g : GitlabUser)
    (h : issue.assigned_to = some a)
    (hg : redmine_uid_to_gitlab_user ud a.id rui gui = .ok g) :
    applyAssignee ud rui gui issue d = { d with assignee_id := some g.id } := by
  unfold applyAssignee
  rw [h]
  dsimp only
  rw [hg]

lemma applyAssignee_unresolved (ud : Option (List (String × String)))
    (rui : List (Nat × RedmineUser)) (gui : List (String × GitlabUser))
    (issue : RedmineIssue) (d : GitlabIssuePayload) (a : NamedRef)
    (h : issue.assigned_to = some a)
    (hg : redmine_uid_to_gitlab_user ud a.id rui gui = .error ()) :
    applyAssignee ud rui gui issue d =
      { d with labels := d.labels ++ "," ++ a.name } := by
  unfold applyAssignee
  rw [h]
  dsimp only
  rw [hg]

lemma convert_issue_ok_shape (k : String) (issue : RedmineIssue)
    (ud : Option (List (String × String))) (rui : List (Nat × RedmineUser))
    (gui : List (String × GitlabUser)) (gmi : List (String × GitlabMilestone))
    (cs cfi : List String) (tc : String → String) (kt sf : Bool)
    (data : GitlabIssuePayload) (meta : IssueMeta) (sid : Nat)
    (h : convert_issue k issue ud rui gui gmi cs cfi tc kt sf = .ok (data, meta, sid)) :
    meta = issueMetaOf k issue ud rui gui cs tc sf ∧
    sid = issue.id ∧
    (issue.fixed_version = none →
      data = applyAssignee ud rui gui issue
        (issueBaseData issue ud rui gui cs cfi tc kt sf)) ∧
    (∀ v, issue.fixed_version = some v →
      ∃ m, gmi.lookup v.name = some m ∧
        data = applyAssignee ud rui gui issue
          { issueBaseData issue ud rui gui cs cfi tc kt sf with
            milestone_id := some m.id }) := by
  cases hfv : issue.fixed_version with
  | none =>
    simp only [convert_issue, hfv] at h
    simp only [Except.ok.injEq, Prod.mk.injEq] at h
    obtain ⟨hd, hm, hs⟩ := h
    exact ⟨hm.symm, hs.symm, fun _ => hd.symm, fun v hv => nomatch hv⟩
  | some v =>
    cases hlk : gmi.lookup v.name with
    | none =>
      simp only [convert_issue, hfv, hlk] at h
      simp at h
    | some m =>
      simp only [convert_issue, hfv, hlk] at h
      simp only [Except.ok.injEq, Prod.mk.injEq] at h
      obtain ⟨hd, hm, hs⟩ := h
      refine ⟨hm.symm, hs.symm, ?_, ?_⟩
      · intro hn
        simp at hn
      · intro v2 hv2
        cases hv2
        exact ⟨m, hlk, hd.symm⟩

lemma issueDescription_split (tc : String → String) (issue : RedmineIssue)
    (ct cl rt cht cft : String) :
    ∃ p q, issueDescription tc issue ct cl rt cht cft = p ++ cl ++ q := by
  refine ⟨tc (issue.description.getD "") ++ "\n\n*(from redmine: issue id " ++
    toString issue.id ++ ", created on " ++ issue.created_on.take 10 ++ ct,
    ")*\n" ++ rt ++ cht ++ cft, ?_⟩
  simp [issueDescription, String.append_assoc]

lemma joinStr_cons_eq (sep a : String) (l : List String) :
    ∃ t, joinStr sep (a :: l) = a ++ t := by
  cases l with
  | nil => exact ⟨"", by simp [joinStr]⟩
  | cons b r => exact ⟨sep ++ joinStr sep (b :: r), by simp [joinStr, String.append_assoc]⟩

lemma append_ne_empty_left (a b : String) (h : a ≠ "") : a ++ b ≠ "" := by
  intro hab
  apply h
  have hd : (a ++ b).data = ("" : String).data := by rw [hab]
  simp only [String.data_append] at hd
  rcases List.append_eq_nil.mp hd with ⟨ha, _⟩
  cases a
  simp_all

lemma bullet_ne_empty (t : String) : "  * " ++ t ≠ "" := by
  apply append_ne_empty_left
  intro h
  have hd : ("  * " : String).data = ("" : String).data := by rw [h]
  simp at hd

lemma joinStr_bullet_head (a y : String) (l : List String) (h : a = "  * " ++ y) :
    (∃ u, joinStr "\n" (a :: l) = "  * " ++ u) ∧ joinStr "\n" (a :: l) ≠ "" := by
  obtain ⟨t, ht⟩ := joinStr_cons_eq "\n" a l
  refine ⟨⟨y ++ t, ?_⟩, ?_⟩
  · rw [ht, h, String.append_assoc]
  · rw [ht, h, String.append_assoc]
    exact bullet_ne_empty _

lemma relations_to_string_cons (r : Relation) (rs : List Relation)
    (children : List IdRef) (parent_id iid : Nat) :
    ∃ l, relations_to_string (r :: rs) children parent_id iid =
      joinStr "\n" (relationLine iid r :: l) := by
  by_cases hp : parent_id > 0 <;> (simp [relations_to_string, hp]; exact ⟨_, rfl⟩)

lemma relationLine_bullet (iid : Nat) (r : Relation) :
    relationLine iid r = "  * " ++ (r.relation_type ++ (" #" ++
      toString (if iid == r.issue_id then r.issue_to_id else r.issue_id))) := by
  simp [relationLine, String.append_assoc]

lemma changesetLine_bullet (c : Changeset) :
    ∃ y, changesetLine c = "  * " ++ y := by
  have hsplit : ("  * Revision " : String) = "  * " ++ "Revision " := rfl
  cases h : c.user with
  | none =>
    refine ⟨"Revision " ++ (c.revision ++ (" on " ++ (c.committed_on ++
      (":\n\n```\n" ++ (c.comments ++ "\n```\n"))))), ?_⟩
    have step : changesetLine c = "  * Revision " ++ (c.revision ++ (" on " ++
        (c.committed_on ++ (":\n\n```\n" ++ (c.comments ++ "\n```\n"))))) := by
      simp [changesetLine, h, String.append_assoc]
    rw [step, hsplit, String.append_assoc]
  | some u =>
    refine ⟨"Revision " ++ (c.revision ++ (" by " ++ (u ++ (" on " ++ (c.committed_on ++
      (":\n\n```\n" ++ (c.comments ++ "\n```\n"))))))), ?_⟩
    have step : changesetLine c = "  * Revision " ++ (c.revision ++ (" by " ++ (u ++
        (" on " ++ (c.committed_on ++ (":\n\n```\n" ++ (c.comments ++ "\n```\n"))))))) := by
      simp [changesetLine, h, String.append_assoc]
    rw [step, hsplit, String.append_assoc]

lemma custom_fields_kept_head (fs : List CustomField) (inc : List String)
    (f : CustomField) (hf : f ∈ fs) (hkept : customFieldKept inc f = true) :
    (∃ u, custom_fields_to_string fs inc = "  * " ++ u) ∧
      custom_fields_to_string fs inc ≠ "" := by
  cases hfm : fs.filterMap (fun i =>
      if customFieldKept inc i then
        some ("  * " ++ i.name ++ ": " ++ i.value.getD "") else none) with
  | nil =>
    exfalso
    have := List.filterMap_eq_nil_iff.mp hfm f hf
    simp [hkept] at this
  | cons a l =>
    have ha : a ∈ fs.filterMap (fun i =>
        if customFieldKept inc i then
          some ("  * " ++ i.name ++ ": " ++ i.value.getD "") else none) := by
      rw [hfm]
      exact List.mem_cons_self a l
    obtain ⟨g, _, hg⟩ := List.mem_filterMap.mp ha
    have hak : customFieldKept inc g = true := by
      by_contra hk
      simp only [Bool.not_eq_true] at hk
      simp [hk] at hg
    simp only [hak, if_true, Option.some.injEq] at hg
    have ha2 : a = "  * " ++ (g.name ++ (": " ++ g.value.getD "")) := by
      rw [← hg]
      simp [String.append_assoc]
    have hout : custom_fields_to_string fs inc = joinStr "\n" (a :: l) := by
      simp only [custom_fields_to_string, hfm]
    rw [hout]
    exact joinStr_bullet_head a _ l ha2

/-! ## Claims -/

/-- C4: `relations_to_string` emits, in order, one line
`  * {relation_type} #{other}` per relation — `other` being `issue_to_id`
when the relation's `issue_id` endpoint equals the current issue id and
`issue_id` otherwise — then one `  * child #{id}` line per child, then a
final `  * parent #{parent_id}` line exactly when `parent_id > 0`, all
joined by newlines; and on the concrete scenario
`relations = [{relation_type: blocks, issue_id: 5, issue_to_id: 9}]`,
`issue_id = 5`, no children, `parent_id = 0` the result is exactly
`"  * blocks #9"`. -/
theorem claim_C4_relations_format (relations : List Relation) (children : List IdRef)
    (parent_id issue_id : Nat) :
    relations_to_string relations children parent_id issue_id =
      joinStr "\n"
        (relations.map (fun i => "  * " ++ i.relation_type ++ " #" ++
            toString (if issue_id == i.issue_id then i.issue_to_id else i.issue_id)) ++
          children.map (fun i => "  * child #" ++ toString i.id) ++
          (if parent_id > 0 then ["  * parent #" ++ toString parent_id] else [])) ∧
    relations_to_string [⟨"blocks", 5, 9⟩] [] 0 5 = "  * blocks #9" := by
  refine ⟨?_, rfl⟩
  have hfun : relationLine issue_id = fun i => "  * " ++ i.relation_type ++ " #" ++
      toString (if issue_id == i.issue_id then i.issue_to_id else i.issue_id) := by
    funext i
    rfl
  by_cases hp : parent_id > 0 <;>
    simp [relations_to_string, hfun, hp]

/-- C8: `convert_version` returns title = version name, description =
version description (empty when absent) plus the fixed provenance suffix
with the first 10 characters of `created_on`, a due date (truncated to 10
characters) exactly when the version carries one, and must_close true iff
the status equals `closed`; the spec's `v1.0` scenario is reproduced. -/
theorem claim_C8_convert_version (v : RedmineVersion) :
    (convert_version v).1.title = v.name ∧
    (convert_version v).1.description =
      v.description.getD "" ++ "\n\n*(from redmine: created on " ++
        v.created_on.take 10 ++ ")*" ∧
    (convert_version v).1.due_date = v.due_date.map (·.take 10) ∧
    ((convert_version v).1.due_date.isSome ↔ v.due_date.isSome) ∧
    ((convert_version v).2 = true ↔ v.status = "closed") ∧
    convert_version ⟨"v1.0", none, "2020-01-01", none, "closed"⟩ =
      (⟨"v1.0", "\n\n*(from redmine: created on 2020-01-01)*", none⟩, true) := by
  refine ⟨rfl, by simp [convert_version, String.append_assoc], rfl, ?_, ?_, rfl⟩
  · cases h : v.due_date <;> simp [convert_version, h]
  · simp [convert_version]

/-- C2 counterexample: with a redmine index that does contain id 1
(login `alice`) and an empty gitlab index, `redmine_uid_to_gitlab_user`
still fails (the fallback lookup of `root` itself raises), so the
failure is not equivalent to the redmine id being absent. -/
theorem claim_C2_counterexample :
    (([(1, RedmineUser.mk "alice")] : List (Nat × RedmineUser)).lookup 1).isSome = true ∧
    redmine_uid_to_gitlab_user none 1 [(1, RedmineUser.mk "alice")] [] =
      .error () := by
  exact ⟨rfl, rfl⟩

/-- C2 (amended): provided the fallback login `root` is present in the
gitlab user index, `redmine_uid_to_gitlab_user` fails exactly when the
redmine id is absent from the redmine user index; when the id is present
it returns the gitlab record of the override-mapped login, or the `root`
record when that login is absent from the gitlab index. -/
theorem claim_C2_user_resolution (ud : Option (List (String × String))) (rid : Nat)
    (rui : List (Nat × RedmineUser)) (gui : List (String × GitlabUser))
    (rootRec : GitlabUser) (hroot : gui.lookup "root" = some rootRec) :
    (redmine_uid_to_gitlab_user ud rid rui gui = .error () ↔ rui.lookup rid = none) ∧
    (∀ u, rui.lookup rid = some u →
      redmine_uid_to_gitlab_user ud rid rui gui =
        .ok ((gui.lookup (redmine_username_to_gitlab_username ud u.login)).getD rootRec)) := by
  constructor
  · constructor
    · intro herr
      cases hlu : rui.lookup rid with
      | none => rfl
      | some u =>
        exfalso
        cases hgl : gui.lookup (redmine_username_to_gitlab_username ud u.login) with
        | some g => simp [redmine_uid_to_gitlab_user, hlu, hgl] at herr
        | none => simp [redmine_uid_to_gitlab_user, hlu, hgl, hroot] at herr
    · intro hnone
      simp [redmine_uid_to_gitlab_user, hnone]
  · intro u hu
    cases hgl : gui.lookup (redmine_username_to_gitlab_username ud u.login) with
    | some g => simp [redmine_uid_to_gitlab_user, hu, hgl]
    | none => simp [redmine_uid_to_gitlab_user, hu, hgl, hroot]

/-- C2 witness: a concrete resolution through the `root` fallback. -/
theorem claim_C2_user_resolution_witness :
    redmine_uid_to_gitlab_user none 1 [(1, RedmineUser.mk "alice")]
      [("root", GitlabUser.mk 7 "root")] = .ok (GitlabUser.mk 7 "root") := by
  have h := (claim_C2_user_resolution none 1 [(1, RedmineUser.mk "alice")]
    [("root", GitlabUser.mk 7 "root")] (GitlabUser.mk 7 "root") rfl).2
    (RedmineUser.mk "alice") rfl
  simpa using h

/-- C3 counterexample: `custom_fields_to_string` returns the empty string
on a non-empty custom-field list when no field passes the allow-list, so
"non-empty input implies non-empty bulleted output" fails for it. -/
theorem claim_C3_counterexample :
    ([CustomField.mk "Platform" (some "x86")] : List CustomField) ≠ [] ∧
    custom_fields_to_string [CustomField.mk "Platform" (some "x86")] [] = "" := by
  exact ⟨by simp, rfl⟩

/-- C3 (amended): all three denormalizers return exactly the empty string
(a genuine string, never an optional null) on empty inputs; a non-empty
relation or changeset list yields a non-empty string starting with
`  * `; and `custom_fields_to_string` yields a non-empty string starting
with `  * ` exactly when some field is in the allow-list with a
non-empty value. -/
theorem claim_C3_empty_contract (custom_fields_include : List String) (issue_id : Nat) :
    relations_to_string [] [] 0 issue_id = "" ∧
    changesets_to_string [] = "" ∧
    custom_fields_to_string [] custom_fields_include = "" ∧
    (∀ r rs children parent_id iid, ∃ t,
      relations_to_string (r :: rs) children parent_id iid = "  * " ++ t ∧
      relations_to_string (r :: rs) children parent_id iid ≠ "") ∧
    (∀ c cs, ∃ t, changesets_to_string (c :: cs) = "  * " ++ t ∧
      changesets_to_string (c :: cs) ≠ "") ∧
    (∀ fs inc, ((∃ f ∈ fs, customFieldKept inc f = true) ↔
        custom_fields_to_string fs inc ≠ "") ∧
      ((∃ f ∈ fs, customFieldKept inc f = true) →
        ∃ t, custom_fields_to_string fs inc = "  * " ++ t)) := by
  refine ⟨rfl, rfl, rfl, ?_, ?_, ?_⟩
  · intro r rs children parent_id iid
    obtain ⟨l, hl⟩ := relations_to_string_cons r rs children parent_id iid
    obtain ⟨⟨u, hu⟩, hne⟩ :=
      joinStr_bullet_head (relationLine iid r) _ l (relationLine_bullet iid r)
    rw [hl]
    exact ⟨u, hu, hne⟩
  · intro c cs
    obtain ⟨y, hy⟩ := changesetLine_bullet c
    have hl : changesets_to_string (c :: cs) =
        joinStr "\n" (changesetLine c :: cs.map changesetLine) := rfl
    obtain ⟨⟨u, hu⟩, hne⟩ := joinStr_bullet_head (changesetLine c) y _ hy
    rw [hl]
    exact ⟨u, hu, hne⟩
  · intro fs inc
    constructor
    · constructor
      · rintro ⟨f, hf, hkept⟩
        exact (custom_fields_kept_head fs inc f hf hkept).2
      · intro hne
        by_contra hnk
        push_neg at hnk
        apply hne
        have hfm : fs.filterMap (fun i =>
            if customFieldKept inc i then
              some ("  * " ++ i.name ++ ": " ++ i.value.getD "") else none) = [] := by
          apply List.filterMap_eq_nil_iff.mpr
          intro f hf
          have := hnk f hf
          simp [this]
        simp [custom_fields_to_string, hfm, joinStr]
    · rintro ⟨f, hf, hkept⟩
      exact (custom_fields_kept_head fs inc f hf hkept).1

/-- C3 witness: the amended contract applied at concrete inputs — a kept
custom field produces non-empty bulleted output. -/
theorem claim_C3_empty_contract_witness :
    custom_fields_to_string [CustomField.mk "Platform" (some "x86")] ["Platform"] ≠ "" := by
  have h := ((claim_C3_empty_contract ["Platform"] 0).2.2.2.2.2
    [CustomField.mk "Platform" (some "x86")] ["Platform"]).1.mp
    ⟨CustomField.mk "Platform" (some "x86"), by simp, by decide⟩
  exact h

lemma str_length_pos (s : String) (h : s ≠ "") : s.length > 0 := by
  cases s with
  | mk data =>
    cases data with
    | nil => simp at h
    | cons a l => simp [String.length]

lemma convert_note_entry_skips (ud : Option (List (String × String)))
    (rui : List (Nat × RedmineUser)) (gui : List (String × GitlabUser))
    (tc : String → String) (sf : Bool) (e : JournalEntry)
    (h : entryNotes e = none ∨ entryNotes e = some "") :
    convert_note_entry ud rui gui tc sf e = none := by
  rcases h with h | h <;> simp [convert_note_entry, h]

lemma convert_note_entry_yields (ud : Option (List (String × String)))
    (rui : List (Nat × RedmineUser)) (gui : List (String × GitlabUser))
    (tc : String → String) (sf : Bool) (e : JournalEntry) (s : String)
    (hs : entryNotes e = some s) (hne : s ≠ "") :
    convert_note_entry ud rui gui tc sf e =
      some ({ body := noteBody sf (tc s) e.created_on (noteAuthor ud rui gui e).2.1
                (noteAuthor ud rui gui e).2.2,
              created_at := e.created_on },
            if sf then some (noteAuthor ud rui gui e).1 else none) := by
  have hlen := str_length_pos s hne
  simp [convert_note_entry, hs, hlen]

/-- C5: journal entries whose note text is absent, null, or empty
contribute nothing to `convert_notes` (the surrounding entries' output is
spliced together unchanged); every other entry yields exactly one pair at
its position in input order. -/
theorem claim_C5_skip_empty_notes (ud : Option (List (String × String)))
    (rui : List (Nat × RedmineUser)) (gui : List (String × GitlabUser))
    (tc : String → String) (sf : Bool) (xs ys : List JournalEntry) (e : JournalEntry) :
    ((entryNotes e = none ∨ entryNotes e = some "") →
      convert_notes (xs ++ e :: ys) ud rui gui tc sf =
        convert_notes xs ud rui gui tc sf ++ convert_notes ys ud rui gui tc sf) ∧
    (∀ s, entryNotes e = some s → s ≠ "" →
      ∃ p, convert_notes (xs ++ e :: ys) ud rui gui tc sf =
        convert_notes xs ud rui gui tc sf ++ p :: convert_notes ys ud rui gui tc sf) := by
  constructor
  · intro h
    have hnone := convert_note_entry_skips ud rui gui tc sf e h
    simp [convert_notes, List.filterMap_append, hnone]
  · intro s hs hne
    have hsome := convert_note_entry_yields ud rui gui tc sf e s hs hne
    refine ⟨({ body := (noteBody sf (tc s) e.created_on (noteAuthor ud rui gui e).2.1
        (noteAuthor ud rui gui e).2.2), created_at := e.created_on },
      if sf then some (noteAuthor ud rui gui e).1 else none), ?_⟩
    simp [convert_notes, List.filterMap_append, hsome]

/-- C5 witness: a null-notes entry yields nothing; a non-empty entry
yields a pair. -/
theorem claim_C5_skip_empty_notes_witness :
    convert_notes [⟨none, some none, "2020-01-01"⟩] none [] [] id false = [] ∧
    ∃ p, convert_notes [⟨none, some (some "hi"), "2020-01-01"⟩] none [] [] id false = [p] := by
  constructor
  · have h := (claim_C5_skip_empty_notes none [] [] id false [] []
      ⟨none, some none, "2020-01-01"⟩).1 (Or.inl rfl)
    simpa [convert_notes] using h
  · obtain ⟨p, hp⟩ := (claim_C5_skip_empty_notes none [] [] id false [] []
      ⟨none, some (some "hi"), "2020-01-01"⟩).2 "hi" rfl (by decide)
    exact ⟨p, by simpa [convert_notes] using hp⟩

/-- C6: every pair yielded by `convert_notes` comes from a non-empty
journal entry; its meta is `{sudo_user: author}` when sudo is requested
and exactly empty otherwise, and its body carries the inline
`" by {author_name}"` suffix unless sudo is requested and the author
resolved, in which case the suffix is omitted. -/
theorem claim_C6_note_meta_attribution (ud : Option (List (String × String)))
    (rui : List (Nat × RedmineUser)) (gui : List (String × GitlabUser))
    (tc : String → String) (sf : Bool) (journals : List JournalEntry)
    (d : NoteData) (m : NoteMeta)
    (hmem : (d, m) ∈ convert_notes journals ud rui gui tc sf) :
    ∃ e ∈ journals, ∃ s, entryNotes e = some s ∧ s ≠ "" ∧
      (sf = true → m = some (noteAuthor ud rui gui e).1) ∧
      (sf = false → m = none) ∧
      d.body = tc s ++ "\n\n*(from redmine: written on " ++ e.created_on.take 10 ++
        (if sf && (noteAuthor ud rui gui e).2.2 then ""
         else " by " ++ (noteAuthor ud rui gui e).2.1) ++ ")*" := by
  obtain ⟨e, he, hconv⟩ := List.mem_filterMap.mp hmem
  refine ⟨e, he, ?_⟩
  cases hn : entryNotes e with
  | none => simp [convert_note_entry, hn] at hconv
  | some s =>
    by_cases hlen : s.length > 0
    · have hne : s ≠ "" := by
        intro hemp
        subst hemp
        simp at hlen
      rw [convert_note_entry_yields ud rui gui tc sf e s hn hne] at hconv
      simp only [Option.some.injEq, Prod.mk.injEq] at hconv
      obtain ⟨hd, hm⟩ := hconv
      refine ⟨s, rfl, hne, ?_, ?_, ?_⟩
      · intro hsf
        rw [← hm, hsf]
        simp
      · intro hsf
        rw [← hm, hsf]
        simp
      · rw [← hd]
        cases sf <;> cases hfound : (noteAuthor ud rui gui e).2.2 <;>
          simp [noteBody, hfound]
    · simp [convert_note_entry, hn, hlen] at hconv

/-- C6 witness: the characterization applied to the single pair produced
by a concrete one-entry journal without sudo. -/
theorem claim_C6_note_meta_attribution_witness :
    ∃ e ∈ [(⟨none, some (some "hi"), "2020-01-01T09:00:00Z"⟩ : JournalEntry)],
      ∃ s, entryNotes e = some s ∧ s ≠ "" ∧
      (false = true → (none : NoteMeta) = some (noteAuthor none [] [] e).1) ∧
      (false = false → (none : NoteMeta) = none) ∧
      ({ body := "hi\n\n*(from redmine: written on 2020-01-01 by None)*",
         created_at := "2020-01-01T09:00:00Z" } : NoteData).body =
        id s ++ "\n\n*(from redmine: written on " ++ e.created_on.take 10 ++
        (if false && (noteAuthor none [] [] e).2.2 then ""
         else " by " ++ (noteAuthor none [] [] e).2.1) ++ ")*" := by
  apply claim_C6_note_meta_attribution none [] [] id false
  have hev : convert_notes [⟨none, some (some "hi"), "2020-01-01T09:00:00Z"⟩]
      none [] [] id false =
      [({ body := "hi\n\n*(from redmine: written on 2020-01-01 by None)*",
          created_at := "2020-01-01T09:00:00Z" }, (none : NoteMeta))] := by
    decide
  rw [hev]
  exact List.mem_singleton_self _

/-- C9: `convert_issue` is a deterministic pure function of its input
snapshot — two invocations on the same issue record, user and milestone
indexes, closed-state set, allow-list, rich-text converter, flags and
override table give identical payload, meta and source id (the embedding
is a mathematical function and the source reads no clock, randomness or
mutable state beyond the override table, which is an explicit input
here). -/
theorem claim_C9_deterministic (k : String) (issue : RedmineIssue)
    (ud : Option (List (String × String))) (rui : List (Nat × RedmineUser))
    (gui : List (String × GitlabUser)) (gmi : List (String × GitlabMilestone))
    (cs cfi : List String) (tc : String → String) (kt sf : Bool) :
    convert_issue k issue ud rui gui gmi cs cfi tc kt sf =
      convert_issue k issue ud rui gui gmi cs cfi tc kt sf := rfl

/-- C1: an issue with non-empty `closed_on` is closed with provenance
suffix `", closed on {closed_on[:10]}"`; otherwise, an issue whose
lowercased status name is in the caller-supplied closed-state set is
closed with suffix `", closed (state: {status})"`; otherwise it stays open
and the close component of the provenance line is empty. `must_close`
equals that closed flag and the description embeds the close component. -/
theorem claim_C1_closed_determination (k : String) (issue : RedmineIssue)
    (ud : Option (List (String × String))) (rui : List (Nat × RedmineUser))
    (gui : List (String × GitlabUser)) (gmi : List (String × GitlabMilestone))
    (cs cfi : List String) (tc : String → String) (kt sf : Bool)
    (data : GitlabIssuePayload) (meta : IssueMeta) (sid : Nat)
    (h : convert_issue k issue ud rui gui gmi cs cfi tc kt sf = .ok (data, meta, sid)) :
    meta.must_close = (issueClosePair issue cs).2 ∧
    (∃ p q, data.description = p ++ (issueClosePair issue cs).1 ++ q) ∧
    (truthyOptStr issue.closed_on = true →
      issueClosePair issue cs =
        (", closed on " ++ (issue.closed_on.getD "").take 10, true)) ∧
    (truthyOptStr issue.closed_on = false → strLower issue.status.name ∈ cs →
      issueClosePair issue cs = (", closed (state: " ++ issue.status.name ++ ")", true)) ∧
    (truthyOptStr issue.closed_on = false → strLower issue.status.name ∉ cs →
      issueClosePair issue cs = ("", false)) := by
  obtain ⟨hmeta, hsid, hnone, hsome⟩ :=
    convert_issue_ok_shape k issue ud rui gui gmi cs cfi tc kt sf data meta sid h
  refine ⟨?_, ?_, ?_, ?_, ?_⟩
  · rw [hmeta]
    rfl
  · have hdesc : data.description =
        (issueBaseData issue ud rui gui cs cfi tc kt sf).description := by
      cases hfv : issue.fixed_version with
      | none =>
        rw [hnone hfv]
        exact (applyAssignee_frame ud rui gui issue _).2.1
      | some v =>
        obtain ⟨m, hlk, hd⟩ := hsome v hfv
        rw [hd]
        exact (applyAssignee_frame ud rui gui issue _).2.1
    rw [hdesc]
    simp only [issueBaseData]
    exact issueDescription_split tc issue _ _ _ _ _
  · intro hc
    simp [issueClosePair, hc]
  · intro hc hs
    simp [issueClosePair, hc, hs]
  · intro hc hs
    simp [issueClosePair, hc, hs]

/-- C1 witness: the spec's issue-38 scenario (closed_on 2012-09-27)
evaluated concretely: the conversion succeeds, the theorem applies, and
the close pair is `(", closed on 2012-09-27", true)`. -/
theorem claim_C1_closed_determination_witness :
    (issueClosePair
        ⟨38, "Search function broken", some "desc", ⟨1, "New"⟩, ⟨2, "Bug"⟩, none, none,
          ⟨7, "Alice"⟩, none, "2012-09-01T00:00:00Z", some "2012-09-27T10:00:00Z", none,
          none, [], [], [], none, [], [], []⟩
        ["closed"]).2 = true := by
  have h := (claim_C1_closed_determination "k"
    ⟨38, "Search function broken", some "desc", ⟨1, "New"⟩, ⟨2, "Bug"⟩, none, none,
      ⟨7, "Alice"⟩, none, "2012-09-01T00:00:00Z", some "2012-09-27T10:00:00Z", none,
      none, [], [], [], none, [], [], []⟩
    none [] [] [] ["closed"] [] id false false
    { title := "-RM-38-MR-Search function broken"
      description := "desc\n\n*(from redmine: issue id 38, created on 2012-09-01 by Alice, closed on 2012-09-27)*\n"
      due_date := none
      created_at := "2012-09-01T00:00:00Z"
      labels := "Bug,New"
      milestone_id := none
      assignee_id := none }
    { notes := [], must_close := true, uploads := [], sudo_user := none }
    38 rfl).1
  rw [← h]

/-- C7: with an assignee present, successful resolution of its redmine id
sets the payload's `assignee_id` to the resolved gitlab user's id; a
resolution failure never makes `convert_issue` fail (its success agrees
with the same issue converted without an assignee) and instead appends the
raw assignee name to the labels string. -/
theorem claim_C7_assignee_resolution (k : String) (issue : RedmineIssue)
    (ud : Option (List (String × String))) (rui : List (Nat × RedmineUser))
    (gui : List (String × GitlabUser)) (gmi : List (String × GitlabMilestone))
    (cs cfi : List String) (tc : String → String) (kt sf : Bool) (a : NamedRef)
    (ha : issue.assigned_to = some a) :
    (∀ g, redmine_uid_to_gitlab_user ud a.id rui gui = .ok g →
      ∀ data meta sid,
        convert_issue k issue ud rui gui gmi cs cfi tc kt sf = .ok (data, meta, sid) →
        data.assignee_id = some g.id) ∧
    (redmine_uid_to_gitlab_user ud a.id rui gui = .error () →
      ((convert_issue k issue ud rui gui gmi cs cfi tc kt sf).isOk =
        (convert_issue k { issue with assigned_to := none }
          ud rui gui gmi cs cfi tc kt sf).isOk) ∧
      (∀ data meta sid,
        convert_issue k issue ud rui gui gmi cs cfi tc kt sf = .ok (data, meta, sid) →
        ∃ base, data.labels = base ++ "," ++ a.name)) := by
  constructor
  · intro g hg data meta sid h
    obtain ⟨_, _, hnone, hsome⟩ :=
      convert_issue_ok_shape k issue ud rui gui gmi cs cfi tc kt sf data meta sid h
    cases hfv : issue.fixed_version with
    | none =>
      rw [hnone hfv, applyAssignee_resolved ud rui gui issue _ a g ha hg]
    | some v =>
      obtain ⟨m, hlk, hd⟩ := hsome v hfv
      rw [hd, applyAssignee_resolved ud rui gui issue _ a g ha hg]
  · intro hg
    constructor
    · cases hfv : issue.fixed_version with
      | none =>
        simp only [convert_issue, hfv]
        rfl
      | some v =>
        cases hlk : gmi.lookup v.name with
        | some m =>
          simp only [convert_issue, hfv, hlk]
          rfl
        | none =>
          simp only [convert_issue, hfv, hlk]
    · intro data meta sid h
      obtain ⟨_, _, hnone, hsome⟩ :=
        convert_issue_ok_shape k issue ud rui gui gmi cs cfi tc kt sf data meta sid h
      cases hfv : issue.fixed_version with
      | none =>
        rw [hnone hfv, applyAssignee_unresolved ud rui gui issue _ a ha hg]
        exact ⟨_, rfl⟩
      | some v =>
        obtain ⟨m, hlk, hd⟩ := hsome v hfv
        rw [hd, applyAssignee_unresolved ud rui gui issue _ a ha hg]
        exact ⟨_, rfl⟩

/-- C7 witness: a concrete issue whose assignee id 9 is absent from the
redmine index — conversion succeeds and the labels string gains ",Bob". -/
theorem claim_C7_assignee_resolution_witness :
    ∃ base, ("Bug,New,Bob" : String) = base ++ "," ++ "Bob" := by
  have h := ((claim_C7_assignee_resolution "k"
    ⟨1, "s", none, ⟨1, "New"⟩, ⟨2, "Bug"⟩, none, none, ⟨7, "Alice"⟩,
      some ⟨9, "Bob"⟩, "2020-01-01T00:00:00Z", none, none,
      none, [], [], [], none, [], [], []⟩
    none [] [("root", ⟨1, "root"⟩)] [] [] [] id false false ⟨9, "Bob"⟩ rfl).2 rfl).2
    { title := "-RM-1-MR-s"
      description := "\n\n*(from redmine: issue id 1, created on 2020-01-01 by Alice)*\n"
      due_date := none
      created_at := "2020-01-01T00:00:00Z"
      labels := "Bug,New,Bob"
      milestone_id := none
      assignee_id := none }
    { notes := [], must_close := false, uploads := [], sudo_user := none }
    1 rfl
  simpa using h

/-- C10: the payload carries `milestone_id` exactly when the issue has a
fixed version, and `assignee_id` exactly when an assignee is present and
resolves; when assignee resolution fails, the payload differs from the
assignee-free conversion only in the labels string (raw assignee name
appended after a comma) — title, description, due_date, created_at,
milestone_id and the whole meta are unchanged. -/
theorem claim_C10_payload_frame (k : String) (issue : RedmineIssue)
    (ud : Option (List (String × String))) (rui : List (Nat × RedmineUser))
    (gui : List (String × GitlabUser)) (gmi : List (String × GitlabMilestone))
    (cs cfi : List String) (tc : String → String) (kt sf : Bool)
    (data : GitlabIssuePayload) (meta : IssueMeta) (sid : Nat)
    (h : convert_issue k issue ud rui gui gmi cs cfi tc kt sf = .ok (data, meta, sid)) :
    data.milestone_id.isSome = issue.fixed_version.isSome ∧
    data.assignee_id.isSome = (match issue.assigned_to with
      | some a => assigneeResolves ud rui gui a
      | none => false) ∧
    (∀ a, issue.assigned_to = some a →
      redmine_uid_to_gitlab_user ud a.id rui gui = .error () →
      ∀ data2 meta2 sid2,
        convert_issue k { issue with assigned_to := none }
          ud rui gui gmi cs cfi tc kt sf = .ok (data2, meta2, sid2) →
        data.title = data2.title ∧ data.description = data2.description ∧
        data.due_date = data2.due_date ∧ data.created_at = data2.created_at ∧
        data.milestone_id = data2.milestone_id ∧ meta = meta2 ∧
        data.labels = data2.labels ++ "," ++ a.name) := by
  obtain ⟨hmeta, hsid, hnone, hsome⟩ :=
    convert_issue_ok_shape k issue ud rui gui gmi cs cfi tc kt sf data meta sid h
  refine ⟨?_, ?_, ?_⟩
  · cases hfv : issue.fixed_version with
    | none =>
      rw [hnone hfv, (applyAssignee_frame ud rui gui issue _).2.2.2.2]
      rfl
    | some v =>
      obtain ⟨m, hlk, hd⟩ := hsome v hfv
      rw [hd, (applyAssignee_frame ud rui gui issue _).2.2.2.2]
      rfl
  · have hbase : ∀ d : GitlabIssuePayload, d.assignee_id = none →
        (applyAssignee ud rui gui issue d).assignee_id =
          (match issue.assigned_to with
            | some a => if assigneeResolves ud rui gui a then
                (match redmine_uid_to_gitlab_user ud a.id rui gui with
                  | .ok g => some g.id
                  | .error _ => none)
              else none
            | none => none) := by
      intro d hd
      cases ha : issue.assigned_to with
      | none => rw [applyAssignee_no_assignee ud rui gui issue d ha, hd]
      | some a =>
        cases hr : redmine_uid_to_gitlab_user ud a.id rui gui with
        | ok g =>
          rw [applyAssignee_resolved ud rui gui issue d a g ha hr]
          simp [assigneeResolves, hr]
        | error e =>
          cases e
          rw [applyAssignee_unresolved ud rui gui issue d a ha hr]
          simp [assigneeResolves, hr, hd]
    have haid : data.assignee_id = (match issue.assigned_to with
        | some a => if assigneeResolves ud rui gui a then
            (match redmine_uid_to_gitlab_user ud a.id rui gui with
              | .ok g => some g.id
              | .error _ => none)
          else none
        | none => none) := by
      cases hfv : issue.fixed_version with
      | none =>
        rw [hnone hfv]
        exact hbase _ rfl
      | some v =>
        obtain ⟨m, hlk, hd⟩ := hsome v hfv
        rw [hd]
        exact hbase _ rfl
    rw [haid]
    cases ha : issue.assigned_to with
    | none => rfl
    | some a =>
      cases hr : redmine_uid_to_gitlab_user ud a.id rui gui with
      | ok g => simp [assigneeResolves, hr]
      | error e =>
        cases e
        simp [assigneeResolves, hr]
  · intro a ha hres data2 meta2 sid2 h2
    obtain ⟨hmeta2, hsid2, hnone2, hsome2⟩ :=
      convert_issue_ok_shape k { issue with assigned_to := none }
        ud rui gui gmi cs cfi tc kt sf data2 meta2 sid2 h2
    have hmm : meta = meta2 := hmeta.trans hmeta2.symm
    cases hfv : issue.fixed_version with
    | none =>
      have hfv2 : ({ issue with assigned_to := none } : RedmineIssue).fixed_version =
          none := hfv
      rw [hnone hfv, applyAssignee_unresolved ud rui gui issue _ a ha hres,
        hnone2 hfv2,
        applyAssignee_no_assignee ud rui gui { issue with assigned_to := none } _ rfl]
      exact ⟨rfl, rfl, rfl, rfl, rfl, hmm, rfl⟩
    | some v =>
      have hfv2 : ({ issue with assigned_to := none } : RedmineIssue).fixed_version =
          some v := hfv
      obtain ⟨m, hlk, hd⟩ := hsome v hfv
      obtain ⟨m2, hlk2, hd2⟩ := hsome2 v hfv2
      cases hlk.symm.trans hlk2
      rw [hd, applyAssignee_unresolved ud rui gui issue _ a ha hres,
        hd2,
        applyAssignee_no_assignee ud rui gui { issue with assigned_to := none } _ rfl]
      exact ⟨rfl, rfl, rfl, rfl, rfl, hmm, rfl⟩

/-- C10 witness: the frame property applied to a concrete issue with a
fixed version and an unresolvable assignee — `milestone_id` is present
and `assignee_id` absent. -/
theorem claim_C10_payload_frame_witness :
    (some 42 : Option Nat).isSome = (some (⟨3, "v1"⟩ : NamedRef)).isSome ∧
      (none : Option Nat).isSome = false := by
  have h := claim_C10_payload_frame "k"
    ⟨1, "s", none, ⟨1, "New"⟩, ⟨2, "Bug"⟩, none, none, ⟨7, "Alice"⟩,
      some ⟨9, "Bob"⟩, "2020-01-01T00:00:00Z", none, none,
      some ⟨3, "v1"⟩, [], [], [], none, [], [], []⟩
    none [] [] [("v1", ⟨42⟩)] [] [] id false false
    { title := "-RM-1-MR-s"
      description := "\n\n*(from redmine: issue id 1, created on 2020-01-01 by Alice)*\n"
      due_date := none
      created_at := "2020-01-01T00:00:00Z"
      labels := "Bug,New,Bob"
      milestone_id := some 42
      assignee_id := none }
    { notes := [], must_close := false, uploads := [], sudo_user := none }
    1 rfl
  exact ⟨h.1, h.2.1⟩

end RGM
